import Mathlib

/-!
Verification of `sync-redis.py` (openslides-redis-sync), a one-shot
synchronizer that copies a versioned dataset from a production Redis to a
read-only replica Redis.

Shallow embedding: each Redis store is a record of the four structures the
script touches (the `element_cache_full_data` hash, the
`element_cache_change_id` sorted set, the `element_cache_schema` hash and the
production-marker key).  Hashes and sorted sets are association lists; the
Redis commands the script issues (HGETALL, HGET, HMSET, HDEL, ZSCORE, ZADD,
ZRANGEBYSCORE, ZREVRANGEBYSCORE, DEL) are modelled as the corresponding
association-list operations.  Sorted-set scores are integers (the change ids
the script manipulates are integral; `convert_change_id_list` coerces them
with `int`).  ZRANGEBYSCORE returns its entries in score order; no property
below depends on the order of the returned list, so the model keeps the
store's list order.

Python byte strings and text strings are distinct values (`b"db" != "db"`);
the embedding keeps that distinction where it matters with the `PyStr` type:
`aioredis.hgetall` returns a dict with *byte-string* keys, while
`check_full_update` queries that dict with *text* keys.

The network effects of a run are recorded as an event trace (`Ev`): one
event per round trip to the production redis, one per replica inspection
(`fetch_ro_redis_data`), one per executed replica MULTI/EXEC transaction,
plus a marker for the pure full-vs-partial decision.
-/

namespace SyncRedis

/-- Key of the sorted set holding (element id, change id) pairs. -/
def change_id_key : String := "element_cache_change_id"

/-- Key of the hash holding the full data (element id to serialized value). -/
def full_data_key : String := "element_cache_full_data"

/-- Key of the hash holding the schema version fields db, config, migration. -/
def schema_key : String := "element_cache_schema"

/-- Key of the production marker. -/
def production_marker_key : String := "element_cache_production_marker"

/-- Reserved member of the change-id sorted set holding the retention floor. -/
def lowest_change_id_member : String := "_config:lowest_change_id"

/-- Lookup in an association list: the value of the first pair whose key is
`k` (models HGET / ZSCORE / Lua `redis.call('hget', ...)`). -/
def alookup {κ α : Type} [DecidableEq κ] : List (κ × α) → κ → Option α
  | [], _ => none
  | p :: m, k => if p.1 = k then some p.2 else alookup m k

/-- Insert-or-update of one key (one HSET field write / one ZADD member):
replaces the first pair with key `k`, appends if the key is absent. -/
def upsert {κ α : Type} [DecidableEq κ] : List (κ × α) → κ → α → List (κ × α)
  | [], k, v => [(k, v)]
  | p :: m, k, v => if p.1 = k then (k, v) :: m else p :: upsert m k v

/-- HMSET: upsert every (field, value) pair in order. -/
def hmset {κ α : Type} [DecidableEq κ] (m : List (κ × α)) (pairs : List (κ × α)) : List (κ × α) :=
  pairs.foldl (fun acc p => upsert acc p.1 p.2) m

/-- HDEL: remove every pair whose key is listed. -/
def hdel {κ α : Type} [DecidableEq κ] : List (κ × α) → List κ → List (κ × α)
  | [], _ => []
  | p :: m, ks => if p.1 ∈ ks then hdel m ks else p :: hdel m ks

/-- ZADD with a (score, member) pair list, as the script calls it:
upserts each member's score. -/
def zadd (m : List (String × Int)) (pairs : List (Int × String)) : List (String × Int) :=
  hmset m (pairs.map (fun p => (p.2, p.1)))

/-- Score of the entry returned by
`ZREVRANGEBYSCORE key +inf -inf WITHSCORES LIMIT 0 1`: the maximal score in
the set, or `none` when the set is empty. -/
def zmaxScore : List (String × Int) → Option Int
  | [] => none
  | p :: m =>
    match zmaxScore m with
    | none => some p.2
    | some s => some (max p.2 s)

/-- Keys of an association list are pairwise distinct.  This holds of every
Redis hash (fields are unique) and sorted set (members are unique). -/
def nodupKeys {κ α : Type} (m : List (κ × α)) : Prop := (m.map Prod.fst).Nodup

instance {κ α : Type} [DecidableEq κ] (m : List (κ × α)) : Decidable (nodupKeys m) := by
  unfold nodupKeys; infer_instance

/-- Python string value: aioredis replies are byte strings (no encoding is
configured), while literals in the script are text strings.  In Python 3 a
byte string never equals a text string. -/
inductive PyStr where
  | bytes (s : String)
  | text (s : String)
deriving DecidableEq, Repr

/-- Python `dict.get`: value of the first pair with the given key, else None. -/
def pyGet (d : List (PyStr × PyStr)) (k : PyStr) : Option PyStr := alookup d k

/-- View of an `hgetall` reply as a Python dict: byte-string keys and values. -/
def toPyDict (m : List (String × String)) : List (PyStr × PyStr) :=
  m.map (fun p => (PyStr.bytes p.1, PyStr.bytes p.2))

/-- Python truthiness of an optional byte string (`bool(x)` where `x` is the
reply of GET / a Lua `hget`): `None` and `b""` are falsy, every non-empty
byte string is truthy. -/
def pyTruthy : Option String → Bool
  | none => false
  | some s => s ≠ ""

/-- State of one Redis store: the three structures the script reads and
writes plus the production marker value (`none` when the key is absent). -/
structure RedisState where
  fullData : List (String × String)
  changeLog : List (String × Int)
  schema : List (String × String)
  marker : Option String
deriving DecidableEq, Repr

/-- Value of `self.change_id_ro`: the score of the newest change-log entry,
or the string sentinel `"-inf"` when the replica change log is empty. -/
inductive Cursor where
  | neginf
  | score (n : Int)
deriving DecidableEq, Repr

/-- Comparison `floor <= n` as ZRANGEBYSCORE interprets its min argument:
`"-inf"` is below every score. -/
def cursorLe (c : Cursor) (n : Int) : Bool :=
  match c with
  | .neginf => true
  | .score m => m ≤ n

/-- Result of `fetch_ro_redis_data`: the three instance attributes the
method sets. -/
structure RoData where
  change_id_ro : Cursor
  lowest_change_id_ro : Option Int
  schema_ro : List (PyStr × PyStr)
deriving DecidableEq, Repr

/-- Embedding of `Synchronizer.fetch_ro_redis_data`: ZREVRANGEBYSCORE with
count 1 yields the top entry (empty reply means no changes yet), ZSCORE of
the reserved member yields the retention floor, HGETALL yields the schema
dict (with byte-string keys, as aioredis returns it). -/
def fetch_ro_redis_data (ro : RedisState) : RoData :=
  match zmaxScore ro.changeLog with
  | none =>
    { change_id_ro := Cursor.neginf
      lowest_change_id_ro := none
      schema_ro := toPyDict ro.schema }
  | some s =>
    { change_id_ro := Cursor.score s
      lowest_change_id_ro := alookup ro.changeLog lowest_change_id_member
      schema_ro := toPyDict ro.schema }

/-- Embedding of `Synchronizer.check_full_update`.  The schema comparison is
written exactly as in the source: `dict.get` with *text* keys `"db"`,
`"config"`, `"migration"` on dicts whose keys are *byte* strings. -/
def check_full_update (d : RoData) (lowest_change_id_prod : Option Int)
    (schema_production : List (PyStr × PyStr)) : Bool :=
  if d.lowest_change_id_ro = none then true
  else if lowest_change_id_prod = none then true
  else if d.lowest_change_id_ro ≠ lowest_change_id_prod then true
  else if pyGet d.schema_ro (PyStr.text "db") ≠ pyGet schema_production (PyStr.text "db")
      ∨ pyGet d.schema_ro (PyStr.text "config") ≠ pyGet schema_production (PyStr.text "config")
      ∨ pyGet d.schema_ro (PyStr.text "migration")
        ≠ pyGet schema_production (PyStr.text "migration") then true
  else false

/-- Embedding of `Synchronizer.convert_change_id_list`: invert each
(member, score) pair to (score, member); the `int` coercion of the score is
implicit since scores are already integers in the model. -/
def convert_change_id_list (l : List (String × Int)) : List (Int × String) :=
  l.map (fun p => (p.2, p.1))

/-- Network/effect trace events of one run. -/
inductive Ev where
  /-- GET against the production redis. -/
  | prodGet (key : String)
  /-- One `fetch_ro_redis_data` call (reads against the replica). -/
  | roInspect
  /-- ZSCORE round trip against the production redis. -/
  | prodZscore (key member : String)
  /-- HGETALL round trip against the production redis. -/
  | prodHgetall (key : String)
  /-- The pure full-vs-partial decision (`check_full_update`); not a round
  trip, recorded to mark the decision point in the trace. -/
  | decision (full : Bool)
  /-- One atomic Lua script execution against the production redis, with the
  KEYS and the ARGV range bound it was invoked with. -/
  | prodAtomicFetch (keys : List String) (args : List Cursor)
  /-- One executed MULTI/EXEC transaction against the replica. -/
  | roWrite
deriving DecidableEq, Repr

/-- Embedding of `Synchronizer.do_full_update`: the Lua script atomically
reads the whole full-data hash, the whole change-id sorted set with scores
and the whole schema hash from the production redis; the replica transaction
deletes the three keys then writes each fetched structure, skipping a write
whose fetched list is empty (Python truthiness of a list). -/
def do_full_update (prod ro : RedisState) : RedisState × List Ev :=
  let full_data := prod.fullData
  let change_id := convert_change_id_list prod.changeLog
  let schema := prod.schema
  let ro1 : RedisState := { ro with fullData := [], changeLog := [], schema := [] }
  let ro2 := if full_data.isEmpty then ro1
    else { ro1 with fullData := hmset ro1.fullData full_data }
  let ro3 := if change_id.isEmpty then ro2
    else { ro2 with changeLog := zadd ro2.changeLog change_id }
  let ro4 := if schema.isEmpty then ro3
    else { ro3 with schema := hmset ro3.schema schema }
  (ro4, [Ev.prodAtomicFetch [full_data_key, change_id_key, schema_key] [], Ev.roWrite])

/-- Fetch-floor argument of the partial-update script:
`self.change_id_ro + 1 if isinstance(self.change_id_ro, int) else
self.change_id_ro`. -/
def fetchFloorArg (c : Cursor) : Cursor :=
  match c with
  | .score n => .score (n + 1)
  | .neginf => .neginf

/-- Atomic fetch of the partial-update Lua script: every change-log entry
with score at least the floor, and for each such member the current value in
the full-data hash (`false`/absent is relayed as `none`). -/
def partialFetch (prod : RedisState) (floor : Cursor) :
    List (String × Option String) × List (String × Int) :=
  let change_id := prod.changeLog.filter (fun p => cursorLe floor p.2)
  (change_id.map (fun p => (p.1, alookup prod.fullData p.1)), change_id)

/-- Partition step of `do_partial_update`: the fetched pairs whose value is
truthy become (element id, data) change pairs. -/
def changed_elements (partial_full_data : List (String × Option String)) :
    List (String × String) :=
  (partial_full_data.filter (fun p => pyTruthy p.2)).map (fun p => (p.1, p.2.getD ""))

/-- Partition step of `do_partial_update`: the fetched pairs whose value is
falsy (absent or empty) become deleted element ids. -/
def deleted_elements (partial_full_data : List (String × Option String)) :
    List String :=
  (partial_full_data.filter (fun p => ¬ pyTruthy p.2)).map (fun p => p.1)

/-- Replica transaction of `do_partial_update`: HMSET the changed elements,
HDEL the deleted elements, ZADD the converted change-id entries, each step
skipped when its list is empty (Python truthiness of a list). -/
def applyPartial (ro : RedisState) (partial_full_data : List (String × Option String))
    (change_id : List (Int × String)) : RedisState :=
  let ro1 := if (changed_elements partial_full_data).isEmpty then ro
    else { ro with fullData := hmset ro.fullData (changed_elements partial_full_data) }
  let ro2 := if (deleted_elements partial_full_data).isEmpty then ro1
    else { ro1 with fullData := hdel ro1.fullData (deleted_elements partial_full_data) }
  if change_id.isEmpty then ro2
  else { ro2 with changeLog := zadd ro2.changeLog change_id }

/-- Embedding of `Synchronizer.do_partial_update`.  Returns the new replica
state, whether the replica transaction was executed, and the trace.  The
fetched pairs are split by Python truthiness of the value (absent or empty
means deleted); when the fetched delta is empty no transaction runs. -/
def do_partial_update (prod ro : RedisState) (change_id_ro : Cursor) :
    RedisState × Bool × List Ev :=
  let floor := fetchFloorArg change_id_ro
  let fetched := partialFetch prod floor
  let partial_full_data := fetched.1
  let change_id := convert_change_id_list fetched.2
  if partial_full_data.isEmpty && change_id.isEmpty then
    (ro, false, [Ev.prodAtomicFetch [full_data_key, change_id_key] [floor]])
  else
    (applyPartial ro partial_full_data change_id, true,
     [Ev.prodAtomicFetch [full_data_key, change_id_key] [floor], Ev.roWrite])

/-- The delta of an incremental run: the change-log entries of the source
with score at least the fetch floor computed from the replica's cursor. -/
def partialDelta (prod ro : RedisState) : List (String × Int) :=
  (partialFetch prod (fetchFloorArg (fetch_ro_redis_data ro).change_id_ro)).2

/-- The full-vs-partial decision of a run: `check_full_update` applied to
the replica inspection, the production ZSCORE of the retention floor and the
production HGETALL of the schema. -/
def syncDecision (prod ro : RedisState) : Bool :=
  check_full_update (fetch_ro_redis_data ro)
    (alookup prod.changeLog lowest_change_id_member) (toPyDict prod.schema)

/-- Embedding of `Synchronizer.sync_redis`: marker check (abort when the GET
reply is falsy), replica inspection, the two production reads (ZSCORE of the
retention floor, HGETALL of the schema), the decision, the chosen update,
and the final replica inspection for reporting. -/
def sync_redis (prod ro : RedisState) : RedisState × List Ev :=
  if pyTruthy prod.marker then
    let d := fetch_ro_redis_data ro
    if syncDecision prod ro then
      let r := do_full_update prod ro
      (r.1,
        [Ev.prodGet production_marker_key, Ev.roInspect,
         Ev.prodZscore change_id_key lowest_change_id_member,
         Ev.prodHgetall schema_key, Ev.decision true] ++ r.2 ++ [Ev.roInspect])
    else
      let r := do_partial_update prod ro d.change_id_ro
      (r.1,
        [Ev.prodGet production_marker_key, Ev.roInspect,
         Ev.prodZscore change_id_key lowest_change_id_member,
         Ev.prodHgetall schema_key, Ev.decision false] ++ r.2.2 ++ [Ev.roInspect])
  else
    (ro, [Ev.prodGet production_marker_key])

/-! ## Script execution with content-hash caching (`eval_production_redis`) -/

/-- Python `str.startswith`, evaluated on the character lists (the library
`String.startsWith` does not reduce in the kernel). -/
def startswith (e pre : String) : Bool := pre.data.isPrefixOf e.data

/-- One client call of the scripting interface of the production redis. -/
inductive SCall where
  /-- EVALSHA: invoke the cached script with the given hash. -/
  | evalsha (hash : String)
  /-- EVAL: submit the full script body. -/
  | eval (script : String)
deriving DecidableEq, Repr

/-- Behaviour of the production redis scripting interface, as two oracle
functions: the reply to an EVALSHA by hash and the reply to an EVAL by
script body.  `Except.error e` models an `aioredis.errors.ReplyError` with
message `e`. -/
structure ScriptConn (α : Type) where
  evalsha : String → Except String α
  eval : String → Except String α

/-- Embedding of `Synchronizer.eval_production_redis`.  The first parameter
abstracts `hashlib.sha1(script.encode()).hexdigest()` (an external library
call; only its application to the script body matters here).  Returns the
result and the list of calls made: EVALSHA by the content hash first; when
that fails with a reply whose text starts with "NOSCRIPT", one EVAL of the
full body whose result is returned; any other reply error is re-raised. -/
def eval_production_redis {α : Type} (sha1 : String → String) (conn : ScriptConn α)
    (script : String) : Except String α × List SCall :=
  match conn.evalsha (sha1 script) with
  | .ok r => (.ok r, [SCall.evalsha (sha1 script)])
  | .error e =>
    if startswith e "NOSCRIPT" then
      (conn.eval script, [SCall.evalsha (sha1 script), SCall.eval script])
    else
      (.error e, [SCall.evalsha (sha1 script)])

/-! ## Concrete example states used by witnesses and counterexamples -/

/-- Example production store: retention floor 1, elements a, b, c, d at
change ids 2, 3, 4, 5; c has no full-data entry (tombstone) and d has an
empty value. -/
def exProd : RedisState :=
  { fullData := [("a", "v1"), ("b", "v2"), ("d", "")]
    changeLog := [("_config:lowest_change_id", 1), ("a", 2), ("b", 3), ("c", 4), ("d", 5)]
    schema := [("db", "1"), ("config", "1"), ("migration", "1")]
    marker := some "1" }

/-- Example replica: same retention floor, cursor 2 (behind the source), an
old value for a and a stale entry for c. -/
def exRo : RedisState :=
  { fullData := [("a", "old"), ("c", "stale")]
    changeLog := [("_config:lowest_change_id", 1), ("a", 2)]
    schema := [("db", "1"), ("config", "1"), ("migration", "1")]
    marker := none }

/-- The example production store with the marker key absent. -/
def exProdNoMarker : RedisState := { exProd with marker := none }

/-- The example production store with the marker set to the byte string
"0" (non-empty, hence truthy in Python). -/
def exProdMarkerZero : RedisState := { exProd with marker := some "0" }

/-- An entirely empty replica. -/
def exRoEmpty : RedisState :=
  { fullData := [], changeLog := [], schema := [], marker := none }

/-- Production store for the C1 failing input: retention floor equal to the
replica's, but a different db schema version. -/
def c1prod : RedisState :=
  { fullData := [("a", "v1")]
    changeLog := [("_config:lowest_change_id", 1), ("a", 2)]
    schema := [("db", "2"), ("config", "1"), ("migration", "1")]
    marker := some "1" }

/-- Replica for the C1 failing input: db schema version "1" while the
source has "2". -/
def c1ro : RedisState :=
  { fullData := [("a", "v1")]
    changeLog := [("_config:lowest_change_id", 1), ("a", 2)]
    schema := [("db", "1"), ("config", "1"), ("migration", "1")]
    marker := none }

/-- A scripting connection whose script cache is cold: every EVALSHA fails
with a NOSCRIPT reply, EVAL succeeds with 7. -/
def coldConn : ScriptConn Nat :=
  { evalsha := fun _ => .error "NOSCRIPT No matching script."
    eval := fun _ => .ok 7 }

/-! ## Association-list lemmas -/

section Lemmas

variable {κ α : Type} [DecidableEq κ]

theorem lookup_upsert_self (m : List (κ × α)) (k : κ) (v : α) :
    alookup (upsert m k v) k = some v := by
  induction m with
  | nil => simp [upsert, alookup]
  | cons p m ih =>
    by_cases h : p.1 = k
    · simp [upsert, h, alookup]
    · simp [upsert, h, alookup, ih]

theorem lookup_upsert_ne (m : List (κ × α)) (k k' : κ) (v : α) (h : k' ≠ k) :
    alookup (upsert m k v) k' = alookup m k' := by
  have hk : k ≠ k' := Ne.symm h
  induction m with
  | nil => simp [upsert, alookup, hk]
  | cons p m ih =>
    by_cases hp : p.1 = k
    · simp [upsert, hp, alookup, hk]
    · simp [upsert, hp, alookup, ih]

theorem lookup_mem {m : List (κ × α)} {k : κ} {v : α} (h : alookup m k = some v) :
    (k, v) ∈ m := by
  induction m with
  | nil => simp [alookup] at h
  | cons p m ih =>
    by_cases hp : p.1 = k
    · simp only [alookup] at h
      rw [if_pos hp] at h
      cases h
      subst hp
      exact List.mem_cons_self _ _
    · simp only [alookup] at h
      rw [if_neg hp] at h
      exact List.mem_cons_of_mem _ (ih h)

theorem mem_lookup_nodup {m : List (κ × α)} {k : κ} {v : α}
    (hnd : nodupKeys m) (h : (k, v) ∈ m) : alookup m k = some v := by
  induction m with
  | nil => simp at h
  | cons p m ih =>
    rcases List.mem_cons.mp h with h | h
    · subst h
      simp [alookup]
    · have hk : p.1 ≠ k := by
        intro he
        have : k ∈ m.map Prod.fst := List.mem_map.mpr ⟨(k, v), h, rfl⟩
        rw [← he] at this
        exact (List.nodup_cons.mp hnd).1 this
      simp only [alookup, hk, if_neg, not_false_iff]
      exact ih (List.nodup_cons.mp hnd).2 h

theorem lookup_eq_none_iff {m : List (κ × α)} {k : κ} :
    alookup m k = none ↔ k ∉ m.map Prod.fst := by
  induction m with
  | nil => simp [alookup]
  | cons p m ih =>
    by_cases hp : p.1 = k
    · simp [alookup, hp]
    · simp [alookup, hp, ih, Ne.symm hp]

theorem lookup_hmset_notmem (pairs : List (κ × α)) (m : List (κ × α)) (k : κ)
    (h : k ∉ pairs.map Prod.fst) : alookup (hmset m pairs) k = alookup m k := by
  induction pairs generalizing m with
  | nil => simp [hmset]
  | cons p pairs ih =>
    simp only [List.map_cons, List.mem_cons, not_or] at h
    show alookup (hmset (upsert m p.1 p.2) pairs) k = alookup m k
    rw [ih _ h.2, lookup_upsert_ne _ _ _ _ h.1]

theorem lookup_hmset_mem_nodup {pairs : List (κ × α)} (m : List (κ × α)) {k : κ} {v : α}
    (hnd : nodupKeys pairs) (h : (k, v) ∈ pairs) :
    alookup (hmset m pairs) k = some v := by
  induction pairs generalizing m with
  | nil => simp at h
  | cons p pairs ih =>
    rcases List.mem_cons.mp h with h | h
    · subst h
      show alookup (hmset (upsert m k v) pairs) k = some v
      have hnm : k ∉ pairs.map Prod.fst := (List.nodup_cons.mp hnd).1
      rw [lookup_hmset_notmem _ _ _ hnm, lookup_upsert_self]
    · exact ih _ (List.nodup_cons.mp hnd).2 h

theorem lookup_hmset_cases (pairs : List (κ × α)) (m : List (κ × α)) (k : κ) :
    alookup (hmset m pairs) k = alookup m k
      ∨ ∃ v, (k, v) ∈ pairs ∧ alookup (hmset m pairs) k = some v := by
  induction pairs generalizing m with
  | nil => exact Or.inl rfl
  | cons p pairs ih =>
    show alookup (hmset (upsert m p.1 p.2) pairs) k = alookup m k ∨ _
    rcases ih (upsert m p.1 p.2) with h | ⟨v, hv, hl⟩
    · by_cases hk : p.1 = k
      · subst hk
        rw [lookup_upsert_self] at h
        exact Or.inr ⟨p.2, List.mem_cons_self _ _, h⟩
      · rw [lookup_upsert_ne _ _ _ _ (fun he => hk he.symm)] at h
        exact Or.inl h
    · exact Or.inr ⟨v, List.mem_cons_of_mem _ hv, hl⟩

theorem lookup_hdel (m : List (κ × α)) (ks : List κ) (k : κ) :
    alookup (hdel m ks) k = if k ∈ ks then none else alookup m k := by
  induction m with
  | nil => simp [hdel, alookup]
  | cons p m ih =>
    by_cases hp : p.1 ∈ ks
    · by_cases hk : p.1 = k
      · subst hk
        simp [hdel, hp, ih]
      · simp [hdel, hp, ih, alookup, hk]
    · by_cases hk : p.1 = k
      · subst hk
        simp [hdel, hp, alookup]
      · simp [hdel, hp, alookup, hk, ih]

theorem hmset_nil_lookup {l : List (κ × α)} (hnd : nodupKeys l) (k : κ) :
    alookup (hmset ([] : List (κ × α)) l) k = alookup l k := by
  cases h : alookup l k with
  | none =>
    rw [lookup_hmset_notmem _ _ _ (lookup_eq_none_iff.mp h)]
    rfl
  | some v => exact lookup_hmset_mem_nodup _ hnd (lookup_mem h)

end Lemmas

/-! ## Sorted-set (max score) lemmas -/

theorem zmax_eq_none_iff {m : List (String × Int)} : zmaxScore m = none ↔ m = [] := by
  cases m with
  | nil => simp [zmaxScore]
  | cons p m =>
    simp only [zmaxScore]
    cases zmaxScore m <;> simp

theorem zmax_exists_mem {m : List (String × Int)} {M : Int} (h : zmaxScore m = some M) :
    ∃ k, (k, M) ∈ m := by
  induction m generalizing M with
  | nil => simp [zmaxScore] at h
  | cons p m ih =>
    simp only [zmaxScore] at h
    cases hm : zmaxScore m with
    | none =>
      rw [hm] at h
      cases h
      exact ⟨p.1, by simp⟩
    | some s =>
      rw [hm] at h
      cases h
      rcases le_total p.2 s with hle | hle
      · rcases ih hm with ⟨k, hk⟩
        exact ⟨k, by rw [max_eq_right hle]; exact List.mem_cons_of_mem _ hk⟩
      · exact ⟨p.1, by rw [max_eq_left hle]; simp⟩

theorem zmax_isSome_of_mem {m : List (String × Int)} {p : String × Int} (h : p ∈ m) :
    ∃ M, zmaxScore m = some M := by
  cases hm : zmaxScore m with
  | none =>
    rw [zmax_eq_none_iff.mp hm] at h
    simp at h
  | some M => exact ⟨M, rfl⟩

theorem le_zmax_of_mem {m : List (String × Int)} {M : Int} {k : String} {s : Int}
    (hm : zmaxScore m = some M) (h : (k, s) ∈ m) : s ≤ M := by
  induction m generalizing M with
  | nil => simp at h
  | cons p m ih =>
    simp only [zmaxScore] at hm
    cases hmm : zmaxScore m with
    | none =>
      rw [hmm] at hm
      cases hm
      rcases List.mem_cons.mp h with h | h
      · cases h; rfl
      · rw [zmax_eq_none_iff.mp hmm] at h; simp at h
    | some s' =>
      rw [hmm] at hm
      cases hm
      rcases List.mem_cons.mp h with h | h
      · cases h; exact le_max_left _ _
      · exact le_trans (ih hmm h) (le_max_right _ _)

/-! ## Python-dict and decision lemmas -/

theorem pyGet_toPyDict_text (m : List (String × String)) (s : String) :
    pyGet (toPyDict m) (PyStr.text s) = none := by
  induction m with
  | nil => rfl
  | cons p m ih => simpa [toPyDict, pyGet, alookup] using ih

theorem fetch_schema_ro (ro : RedisState) :
    (fetch_ro_redis_data ro).schema_ro = toPyDict ro.schema := by
  unfold fetch_ro_redis_data
  cases zmaxScore ro.changeLog <;> rfl

/-- The schema comparison in `check_full_update` can never fire: both dicts
come from `hgetall` and have byte-string keys, while the lookups use text
keys, so all six `dict.get` calls return `None`. -/
theorem syncDecision_eq_false_iff (prod ro : RedisState) :
    syncDecision prod ro = false ↔
      ∃ L, (fetch_ro_redis_data ro).lowest_change_id_ro = some L
        ∧ alookup prod.changeLog lowest_change_id_member = some L := by
  unfold syncDecision check_full_update
  rw [fetch_schema_ro]
  simp only [pyGet_toPyDict_text]
  cases hro : (fetch_ro_redis_data ro).lowest_change_id_ro with
  | none => simp
  | some L =>
    cases hprod : alookup prod.changeLog lowest_change_id_member with
    | none => simp
    | some L' =>
      by_cases h : L = L'
      · subst h; simp
      · simp [h, Ne.symm h]

theorem zadd_convert (m : List (String × Int)) (l : List (String × Int)) :
    zadd m (convert_change_id_list l) = hmset m l := by
  unfold zadd convert_change_id_list
  rw [List.map_map]
  congr 1
  exact List.map_id' l

/-! ## Helper lemmas about the run -/

theorem pyTruthy_eq_false_iff (o : Option String) :
    pyTruthy o = false ↔ (o = none ∨ o = some "") := by
  cases o with
  | none => simp [pyTruthy]
  | some s =>
    by_cases hs : s = ""
    · subst hs; simp [pyTruthy]
    · simp [pyTruthy, hs]

theorem sync_trace_falsy (prod ro : RedisState) (h : pyTruthy prod.marker = false) :
    sync_redis prod ro = (ro, [Ev.prodGet production_marker_key]) := by
  unfold sync_redis
  rw [h]
  simp

theorem sync_trace_truthy (prod ro : RedisState) (h : pyTruthy prod.marker = true) :
    Ev.roInspect ∈ (sync_redis prod ro).2 := by
  unfold sync_redis
  rw [h]
  by_cases hd : syncDecision prod ro <;> simp [hd]

theorem do_partial_update_trace (prod ro : RedisState) (c : Cursor) :
    (do_partial_update prod ro c).2.2 =
      Ev.prodAtomicFetch [full_data_key, change_id_key] [fetchFloorArg c]
        :: (if (do_partial_update prod ro c).2.1 then [Ev.roWrite] else []) := by
  unfold do_partial_update
  dsimp only
  split <;> rfl

/-! ## Key-uniqueness helpers -/

theorem nodupKeys_filter {κ α : Type} (m : List (κ × α)) (q : κ × α → Bool)
    (h : nodupKeys m) : nodupKeys (m.filter q) :=
  ((List.filter_sublist m).map Prod.fst).nodup h

theorem keys_mapVal {κ α β : Type} (m : List (κ × α)) (g : κ × α → β) :
    (m.map (fun p => (p.1, g p))).map Prod.fst = m.map Prod.fst := by
  induction m with
  | nil => rfl
  | cons p m ih => simp [ih]

theorem key_unique {κ α : Type} [DecidableEq κ] {m : List (κ × α)} (h : nodupKeys m)
    {k : κ} {a b : α} (ha : (k, a) ∈ m) (hb : (k, b) ∈ m) : a = b := by
  have h1 := mem_lookup_nodup h ha
  have h2 := mem_lookup_nodup h hb
  rw [h1] at h2
  cases h2
  rfl

/-! ## Characterization of the full-update transaction -/

theorem do_full_update_state (prod ro : RedisState)
    (h1 : nodupKeys prod.fullData) (h2 : nodupKeys prod.changeLog)
    (h3 : nodupKeys prod.schema) :
    (∀ k, alookup (do_full_update prod ro).1.fullData k = alookup prod.fullData k)
    ∧ (∀ k, alookup (do_full_update prod ro).1.changeLog k = alookup prod.changeLog k)
    ∧ (∀ k, alookup (do_full_update prod ro).1.schema k = alookup prod.schema k) := by
  unfold do_full_update
  refine ⟨fun k => ?_, fun k => ?_, fun k => ?_⟩
  · simp only [apply_ite RedisState.fullData, ite_self]
    cases hfd : prod.fullData with
    | nil => simp
    | cons p m =>
      rw [← hfd]
      have : prod.fullData.isEmpty = false := by rw [hfd]; rfl
      rw [this]
      simp only [Bool.false_eq_true, if_false]
      exact hmset_nil_lookup h1 k
  · simp only [apply_ite RedisState.changeLog, ite_self]
    cases hcl : prod.changeLog with
    | nil => simp [convert_change_id_list]
    | cons p m =>
      rw [← hcl]
      have : (convert_change_id_list prod.changeLog).isEmpty = false := by
        rw [hcl]; rfl
      rw [this]
      simp only [Bool.false_eq_true, if_false]
      rw [zadd_convert]
      exact hmset_nil_lookup h2 k
  · simp only [apply_ite RedisState.schema, ite_self]
    cases hs : prod.schema with
    | nil => simp
    | cons p m =>
      rw [← hs]
      have : prod.schema.isEmpty = false := by rw [hs]; rfl
      rw [this]
      simp only [Bool.false_eq_true, if_false]
      exact hmset_nil_lookup h3 k

/-! ## Characterization of the partial-update transaction -/

theorem applyPartial_changeLog_nonempty (ro : RedisState)
    (pfd : List (String × Option String)) (cid : List (Int × String)) (h : cid ≠ []) :
    (applyPartial ro pfd cid).changeLog = zadd ro.changeLog cid := by
  unfold applyPartial
  have hc : cid.isEmpty = false := by
    cases cid with
    | nil => exact absurd rfl h
    | cons p l => rfl
  rw [hc]
  simp only [Bool.false_eq_true, if_false, apply_ite RedisState.changeLog, ite_self]

theorem applyPartial_schema (ro : RedisState)
    (pfd : List (String × Option String)) (cid : List (Int × String)) :
    (applyPartial ro pfd cid).schema = ro.schema := by
  unfold applyPartial
  simp only [apply_ite RedisState.schema, ite_self]

theorem applyPartial_marker (ro : RedisState)
    (pfd : List (String × Option String)) (cid : List (Int × String)) :
    (applyPartial ro pfd cid).marker = ro.marker := by
  unfold applyPartial
  simp only [apply_ite RedisState.marker, ite_self]

/-- Pointwise effect of the partial-update transaction on the full-data
hash: an element fetched with a truthy value ends at that value, an element
fetched with a falsy value is absent, an element not fetched is framed. -/
theorem applyPartial_fullData_lookup (ro : RedisState)
    (pfd : List (String × Option String)) (cid : List (Int × String))
    (hnd : nodupKeys pfd) (e : String) :
    alookup (applyPartial ro pfd cid).fullData e =
      match alookup pfd e with
      | some w => if pyTruthy w then some (w.getD "") else none
      | none => alookup ro.fullData e := by
  unfold applyPartial
  simp only [apply_ite RedisState.fullData, ite_self]
  have hndc : nodupKeys (changed_elements pfd) := by
    unfold changed_elements
    have := nodupKeys_filter pfd (fun p => pyTruthy p.2) hnd
    unfold nodupKeys at this ⊢
    rwa [keys_mapVal]
  cases hw : alookup pfd e with
  | some w =>
    have hmem : (e, w) ∈ pfd := lookup_mem hw
    cases ht : pyTruthy w with
    | true =>
      have hcm : (e, w.getD "") ∈ changed_elements pfd := by
        unfold changed_elements
        exact List.mem_map.mpr ⟨(e, w), List.mem_filter.mpr ⟨hmem, ht⟩, rfl⟩
      have hce : (changed_elements pfd).isEmpty = false := by
        cases hc : changed_elements pfd with
        | nil => rw [hc] at hcm; simp at hcm
        | cons p l => rfl
      have hdne : e ∉ deleted_elements pfd := by
        unfold deleted_elements
        intro hin
        rcases List.mem_map.mp hin with ⟨q, hq, hqe⟩
        have hqm := List.mem_filter.mp hq
        have : q = (e, w) := by
          have : (q.1, q.2) ∈ pfd := by simpa using hqm.1
          rw [hqe] at this
          have := key_unique hnd this hmem
          rw [← hqe, ← this]
        rw [this] at hqm
        simp [ht] at hqm
      rw [hce]
      simp only [Bool.false_eq_true, if_false]
      have hlc : alookup (hmset ro.fullData (changed_elements pfd)) e = some (w.getD "") :=
        lookup_hmset_mem_nodup _ hndc hcm
      cases hde : (deleted_elements pfd).isEmpty with
      | true => simpa [ht] using hlc
      | false =>
        simp only [Bool.false_eq_true, if_false]
        rw [lookup_hdel, if_neg hdne]
        simpa [ht] using hlc
    | false =>
      have hdm : e ∈ deleted_elements pfd := by
        unfold deleted_elements
        exact List.mem_map.mpr ⟨(e, w), List.mem_filter.mpr ⟨hmem, by simp [ht]⟩, rfl⟩
      have hde : (deleted_elements pfd).isEmpty = false := by
        cases hc : deleted_elements pfd with
        | nil => rw [hc] at hdm; simp at hdm
        | cons p l => rfl
      rw [hde]
      simp only [Bool.false_eq_true, if_false]
      rw [lookup_hdel, if_pos hdm]
      simp [ht]
  | none =>
    have hkeys : e ∉ pfd.map Prod.fst := lookup_eq_none_iff.mp hw
    have hcne : e ∉ (changed_elements pfd).map Prod.fst := by
      unfold changed_elements
      intro hin
      rw [keys_mapVal] at hin
      rcases List.mem_map.mp hin with ⟨q, hq, hqe⟩
      exact hkeys (List.mem_map.mpr ⟨q, (List.mem_filter.mp hq).1, hqe⟩)
    have hdne : e ∉ deleted_elements pfd := by
      unfold deleted_elements
      intro hin
      rcases List.mem_map.mp hin with ⟨q, hq, hqe⟩
      exact hkeys (List.mem_map.mpr ⟨q, (List.mem_filter.mp hq).1, hqe⟩)
    have hbase : alookup (if (changed_elements pfd).isEmpty then ro.fullData
        else hmset ro.fullData (changed_elements pfd)) e = alookup ro.fullData e := by
      cases (changed_elements pfd).isEmpty with
      | true => simp
      | false =>
        simp only [Bool.false_eq_true, if_false]
        exact lookup_hmset_notmem _ _ _ hcne
    cases (deleted_elements pfd).isEmpty with
    | true => simpa using hbase
    | false =>
      simp only [Bool.false_eq_true, if_false]
      rw [lookup_hdel, if_neg hdne]
      simpa using hbase

/-- The fetched pair list is the member list of the fetched delta paired
with the HGET of each member. -/
theorem partialFetch_fst (prod : RedisState) (floor : Cursor) :
    (partialFetch prod floor).1 =
      (partialFetch prod floor).2.map (fun p => (p.1, alookup prod.fullData p.1)) := rfl

theorem do_partial_update_nil (prod ro : RedisState) (c : Cursor)
    (h : (partialFetch prod (fetchFloorArg c)).2 = []) :
    do_partial_update prod ro c =
      (ro, false, [Ev.prodAtomicFetch [full_data_key, change_id_key] [fetchFloorArg c]]) := by
  unfold do_partial_update
  dsimp only
  rw [partialFetch_fst, h]
  rfl

theorem do_partial_update_eq (prod ro : RedisState) (c : Cursor)
    (h : (partialFetch prod (fetchFloorArg c)).2 ≠ []) :
    do_partial_update prod ro c =
      (applyPartial ro (partialFetch prod (fetchFloorArg c)).1
        (convert_change_id_list (partialFetch prod (fetchFloorArg c)).2), true,
       [Ev.prodAtomicFetch [full_data_key, change_id_key] [fetchFloorArg c], Ev.roWrite]) := by
  unfold do_partial_update
  have hce : (convert_change_id_list (partialFetch prod (fetchFloorArg c)).2).isEmpty = false := by
    unfold convert_change_id_list
    cases hc : (partialFetch prod (fetchFloorArg c)).2 with
    | nil => exact absurd hc h
    | cons p l => rfl
  dsimp only
  rw [hce]
  simp

/-! ## Claim theorems -/

/-- Claim C1 (code bug).  The claim — and the code's own comments ("Do a
full update if ... the schema versions are not equal") — require the
decision to be FullSync when any of the three schema fields differs between
replica and source.  The code cannot detect any schema difference:
`check_full_update` calls `dict.get` with the *text* keys "db", "config",
"migration" on dicts whose keys are *byte* strings (raw `hgetall` replies),
so all six lookups return None and the "schema changed" branch is
unreachable.  At the failing input below the retention floors are equal and
the db schema fields differ ("1" on the replica, "2" on the source), yet
the decision is IncrementalSync (`check_full_update` returns false). -/
theorem schema_mismatch_undetected :
    alookup c1prod.schema "db" ≠ alookup c1ro.schema "db"
      ∧ syncDecision c1prod c1ro = false := by decide

/-- Claim C2: on the incremental path, the lower range bound handed to the
delta script (ARGV[1] of the ZRANGEBYSCORE) is the replica's cursor plus 1
when the cursor is a finite integer, and the negative-infinity sentinel
otherwise. -/
theorem partial_update_fetch_floor (prod ro : RedisState) (c : Cursor) :
    (∀ n : Int, c = Cursor.score n →
      (do_partial_update prod ro c).2.2.head? =
        some (Ev.prodAtomicFetch [full_data_key, change_id_key] [Cursor.score (n + 1)]))
    ∧ (c = Cursor.neginf →
      (do_partial_update prod ro c).2.2.head? =
        some (Ev.prodAtomicFetch [full_data_key, change_id_key] [Cursor.neginf])) := by
  constructor
  · rintro n rfl
    rw [do_partial_update_trace]
    rfl
  · rintro rfl
    rw [do_partial_update_trace]
    rfl

/-- Witness for C2 at the cursors 5 and "-inf". -/
theorem partial_update_fetch_floor_witness :
    (do_partial_update exProd exRo (Cursor.score 5)).2.2.head? =
      some (Ev.prodAtomicFetch [full_data_key, change_id_key] [Cursor.score (5 + 1)])
    ∧ (do_partial_update exProd exRo Cursor.neginf).2.2.head? =
      some (Ev.prodAtomicFetch [full_data_key, change_id_key] [Cursor.neginf]) :=
  ⟨(partial_update_fetch_floor exProd exRo (Cursor.score 5)).1 5 rfl,
   (partial_update_fetch_floor exProd exRo Cursor.neginf).2 rfl⟩

/-- Claim C6: when the production marker key is absent or its value is
falsy, the run returns right after the GET of the marker: the replica state
is returned unchanged (no structure touched) and the trace holds no
inspection, no decision, no fetch and no write — only the marker GET. -/
theorem marker_absent_no_op (prod ro : RedisState)
    (h : prod.marker = none ∨ prod.marker = some "") :
    sync_redis prod ro = (ro, [Ev.prodGet production_marker_key]) :=
  sync_trace_falsy prod ro ((pyTruthy_eq_false_iff prod.marker).mpr h)

/-- Witness for C6: the example production store without the marker key. -/
theorem marker_absent_no_op_witness :
    sync_redis exProdNoMarker exRo = (exRo, [Ev.prodGet production_marker_key]) :=
  marker_absent_no_op exProdNoMarker exRo (Or.inl rfl)

/-- Claim C10: marker verification is plain Python truthiness of the GET
reply.  The run proceeds past the marker check (the replica inspection
happens) exactly when the stored value is a non-empty byte string; it
aborts exactly when the key is absent or the value is the empty string.  In
particular a stored "0" or "false" is non-empty, hence the run proceeds. -/
theorem marker_truthiness (prod ro : RedisState) :
    (Ev.roInspect ∈ (sync_redis prod ro).2) ↔
      ¬ (prod.marker = none ∨ prod.marker = some "") := by
  rw [← pyTruthy_eq_false_iff]
  cases ht : pyTruthy prod.marker with
  | false =>
    rw [sync_trace_falsy prod ro ht]
    simp
  | true =>
    simp [sync_trace_truthy prod ro ht, ht]

/-- Claim C9: whenever the run takes the incremental path, the replica
change log was non-empty at inspection time, the cursor
`self.change_id_ro` holds a numeric score (not the "-inf" sentinel), and
the fetch-floor argument built from it is the finite score n+1 — so the
"-inf" sentinel is not passed to the source on this path. -/
theorem incremental_cursor_finite (prod ro : RedisState)
    (h : syncDecision prod ro = false) :
    ro.changeLog ≠ [] ∧
      ∃ n : Int, (fetch_ro_redis_data ro).change_id_ro = Cursor.score n
        ∧ fetchFloorArg (fetch_ro_redis_data ro).change_id_ro = Cursor.score (n + 1) := by
  rcases (syncDecision_eq_false_iff prod ro).mp h with ⟨L, hro, _⟩
  cases hz : zmaxScore ro.changeLog with
  | none =>
    have : (fetch_ro_redis_data ro).lowest_change_id_ro = none := by
      unfold fetch_ro_redis_data
      rw [hz]
    rw [this] at hro
    cases hro
  | some M =>
    have hc : (fetch_ro_redis_data ro).change_id_ro = Cursor.score M := by
      unfold fetch_ro_redis_data
      rw [hz]
    refine ⟨?_, M, hc, by rw [hc]; rfl⟩
    intro he
    rw [he] at hz
    cases hz

/-- Witness for C9: the example incremental pair; the cursor is the score 2. -/
theorem incremental_cursor_finite_witness :
    exRo.changeLog ≠ [] ∧
      ∃ n : Int, (fetch_ro_redis_data exRo).change_id_ro = Cursor.score n
        ∧ fetchFloorArg (fetch_ro_redis_data exRo).change_id_ro = Cursor.score (n + 1) :=
  incremental_cursor_finite exProd exRo (by decide)

/-- Claim C8, as stated, is false: the source retention floor and schema
used by the decision are NOT read inside the executor's atomic fetch.  At
this concrete input the full trace shows a dedicated ZSCORE round trip and
a dedicated HGETALL round trip against the source, both strictly before the
decision event and outside any atomic script execution (the only
`prodAtomicFetch` comes after the decision). -/
theorem source_reads_before_decision_counterexample :
    (sync_redis exProd exRoEmpty).2 =
      [Ev.prodGet production_marker_key, Ev.roInspect,
       Ev.prodZscore change_id_key lowest_change_id_member,
       Ev.prodHgetall schema_key, Ev.decision true,
       Ev.prodAtomicFetch [full_data_key, change_id_key, schema_key] [],
       Ev.roWrite, Ev.roInspect] := by decide

/-- Claim C8, amended: in every run that passes the marker check, the
source's retention floor and schema used by the decision are read by two
separate round trips (a ZSCORE of the reserved member, then an HGETALL of
the schema key) issued after the replica inspection and before the
decision; they are not folded into the executor's atomic fetch. -/
theorem source_reads_before_decision (prod ro : RedisState)
    (h : pyTruthy prod.marker = true) :
    (sync_redis prod ro).2.take 5 =
      [Ev.prodGet production_marker_key, Ev.roInspect,
       Ev.prodZscore change_id_key lowest_change_id_member,
       Ev.prodHgetall schema_key, Ev.decision (syncDecision prod ro)] := by
  unfold sync_redis
  rw [h]
  by_cases hd : syncDecision prod ro <;> simp [hd]

/-- Witness for C8 (amended) at the example incremental pair. -/
theorem source_reads_before_decision_witness :
    (sync_redis exProd exRo).2.take 5 =
      [Ev.prodGet production_marker_key, Ev.roInspect,
       Ev.prodZscore change_id_key lowest_change_id_member,
       Ev.prodHgetall schema_key, Ev.decision (syncDecision exProd exRo)] :=
  source_reads_before_decision exProd exRo rfl

/-- Claim C7: `eval_production_redis` first issues an EVALSHA with the
content hash of the script body; the EVAL of the full body is issued
exactly when that EVALSHA fails with a reply starting with "NOSCRIPT", in
which case the EVAL's result is returned; an EVALSHA success is returned
as-is, and any other reply error is re-raised, with no EVAL issued in
either of those cases. -/
theorem eval_production_redis_spec {α : Type} (sha1 : String → String)
    (conn : ScriptConn α) (script : String) :
    ((eval_production_redis sha1 conn script).2.head? = some (SCall.evalsha (sha1 script)))
    ∧ (∀ r, conn.evalsha (sha1 script) = .ok r →
        eval_production_redis sha1 conn script = (.ok r, [SCall.evalsha (sha1 script)]))
    ∧ (∀ e, conn.evalsha (sha1 script) = .error e → startswith e "NOSCRIPT" = true →
        eval_production_redis sha1 conn script =
          (conn.eval script, [SCall.evalsha (sha1 script), SCall.eval script]))
    ∧ (∀ e, conn.evalsha (sha1 script) = .error e → startswith e "NOSCRIPT" = false →
        eval_production_redis sha1 conn script = (.error e, [SCall.evalsha (sha1 script)]))
    ∧ ((SCall.eval script ∈ (eval_production_redis sha1 conn script).2) ↔
        ∃ e, conn.evalsha (sha1 script) = .error e ∧ startswith e "NOSCRIPT" = true) := by
  unfold eval_production_redis
  cases he : conn.evalsha (sha1 script) with
  | ok r => simp
  | error e =>
    cases hs : startswith e "NOSCRIPT" with
    | false => simp [hs]
    | true => simp [hs]

/-- Witness for C7: a cold script cache (EVALSHA replies NOSCRIPT); one
EVAL of the body is issued and its result returned. -/
theorem eval_production_redis_spec_witness :
    eval_production_redis (fun s => s) coldConn "body" =
      (Except.ok 7, [SCall.evalsha "body", SCall.eval "body"]) :=
  (eval_production_redis_spec (fun s => s) coldConn "body").2.2.1
    "NOSCRIPT No matching script." rfl (by decide)

/-- Claim C4: when the decision is FullSync, the replica transaction clears
the three structures and rewrites them from the atomically fetched source
snapshot (skipping any write whose fetched list is empty); after the run
the replica's full-data hash, change log (the retention-floor pseudo-entry
included, since the quantifier ranges over every member) and schema hash
are each pointwise equal, as key-value maps, to the source's. -/
theorem full_sync_copies_source (prod ro : RedisState)
    (hm : pyTruthy prod.marker = true)
    (hd : syncDecision prod ro = true)
    (h1 : nodupKeys prod.fullData) (h2 : nodupKeys prod.changeLog)
    (h3 : nodupKeys prod.schema) :
    (∀ k, alookup (sync_redis prod ro).1.fullData k = alookup prod.fullData k)
    ∧ (∀ k, alookup (sync_redis prod ro).1.changeLog k = alookup prod.changeLog k)
    ∧ (∀ k, alookup (sync_redis prod ro).1.schema k = alookup prod.schema k) := by
  have hst : (sync_redis prod ro).1 = (do_full_update prod ro).1 := by
    simp [sync_redis, hm, hd]
  rw [hst]
  exact do_full_update_state prod ro h1 h2 h3

/-- Witness for C4: empty replica, non-empty source; after the run the
element a, the retention-floor entry and the db schema field match the
source. -/
theorem full_sync_copies_source_witness :
    alookup (sync_redis exProd exRoEmpty).1.fullData "a" = alookup exProd.fullData "a"
    ∧ alookup (sync_redis exProd exRoEmpty).1.changeLog lowest_change_id_member
        = alookup exProd.changeLog lowest_change_id_member
    ∧ alookup (sync_redis exProd exRoEmpty).1.schema "db" = alookup exProd.schema "db" := by
  have h := full_sync_copies_source exProd exRoEmpty rfl (by decide)
    (by decide) (by decide) (by decide)
  exact ⟨h.1 "a", h.2.1 lowest_change_id_member, h.2.2 "db"⟩

/-- Claim C5: when the decision is IncrementalSync, every fetched
(element id, change id) pair of the delta is handled by value presence:
the change-log entry is merged into the replica keyed by element id; an
element whose source value is present (and non-empty) ends in the replica's
full-data hash with the source's current value; an element whose source
value is absent or empty is absent from the replica's full-data hash after
the run. -/
theorem partial_update_elements (prod ro : RedisState)
    (hm : pyTruthy prod.marker = true)
    (hd : syncDecision prod ro = false)
    (hwf : nodupKeys prod.changeLog) :
    ∀ e s, (e, s) ∈ partialDelta prod ro →
      alookup (sync_redis prod ro).1.changeLog e = some s
      ∧ (∀ v, alookup prod.fullData e = some v → v ≠ "" →
          alookup (sync_redis prod ro).1.fullData e = some v)
      ∧ ((alookup prod.fullData e = none ∨ alookup prod.fullData e = some "") →
          alookup (sync_redis prod ro).1.fullData e = none) := by
  intro e s hmem
  have hne : (partialFetch prod (fetchFloorArg (fetch_ro_redis_data ro).change_id_ro)).2 ≠ [] := by
    intro h0
    unfold partialDelta at hmem
    rw [h0] at hmem
    simp at hmem
  have hst : (sync_redis prod ro).1
      = (do_partial_update prod ro (fetch_ro_redis_data ro).change_id_ro).1 := by
    simp [sync_redis, hm, hd]
  rw [hst, do_partial_update_eq prod ro _ hne]
  have hfetnd : nodupKeys (partialFetch prod
      (fetchFloorArg (fetch_ro_redis_data ro).change_id_ro)).2 :=
    nodupKeys_filter _ _ hwf
  have hpfdnd : nodupKeys (partialFetch prod
      (fetchFloorArg (fetch_ro_redis_data ro).change_id_ro)).1 := by
    unfold nodupKeys
    rw [partialFetch_fst, keys_mapVal]
    exact hfetnd
  have hpe : alookup (partialFetch prod
      (fetchFloorArg (fetch_ro_redis_data ro).change_id_ro)).1 e
      = some (alookup prod.fullData e) := by
    apply mem_lookup_nodup hpfdnd
    rw [partialFetch_fst]
    exact List.mem_map.mpr ⟨(e, s), hmem, rfl⟩
  refine ⟨?_, ?_, ?_⟩
  · rw [applyPartial_changeLog_nonempty _ _ _ (by
        intro hc
        exact hne (List.map_eq_nil_iff.mp hc)), zadd_convert]
    exact lookup_hmset_mem_nodup _ hfetnd hmem
  · intro v hv hv'
    rw [applyPartial_fullData_lookup _ _ _ hpfdnd e, hpe, hv]
    simp [pyTruthy, hv']
  · intro hcase
    rw [applyPartial_fullData_lookup _ _ _ hpfdnd e, hpe]
    rcases hcase with hv | hv <;> rw [hv] <;> simp [pyTruthy]

/-- Witness for C5 at the example pair: the delta holds b (changed, value
"v2"), c (no full-data entry: tombstone) and d (empty value); after the run
b carries the source value while c is absent. -/
theorem partial_update_elements_witness :
    alookup (sync_redis exProd exRo).1.changeLog "b" = some 3
    ∧ alookup (sync_redis exProd exRo).1.fullData "b" = some "v2"
    ∧ alookup (sync_redis exProd exRo).1.fullData "c" = none := by
  have hb := partial_update_elements exProd exRo rfl (by decide) (by decide)
    "b" 3 (by decide)
  have hc := partial_update_elements exProd exRo rfl (by decide) (by decide)
    "c" 4 (by decide)
  exact ⟨hb.1, hb.2.1 "v2" (by decide) (by decide), hc.2.2 (Or.inl (by decide))⟩

/-- Claim C3: with the source unchanged between the runs, a second
incremental run after a first one performs zero writes to the replica (its
trace holds no replica transaction) and returns the replica state of the
first run unchanged. -/
theorem incremental_sync_idempotent (prod ro : RedisState)
    (hm : pyTruthy prod.marker = true)
    (hd : syncDecision prod ro = false)
    (hwfp : nodupKeys prod.changeLog)
    (hwfr : nodupKeys ro.changeLog) :
    (sync_redis prod (sync_redis prod ro).1).1 = (sync_redis prod ro).1
    ∧ Ev.roWrite ∉ (sync_redis prod (sync_redis prod ro).1).2 := by
  rcases (syncDecision_eq_false_iff prod ro).mp hd with ⟨L, hroL, hprodL⟩
  cases hz : zmaxScore ro.changeLog with
  | none =>
    have hnone : (fetch_ro_redis_data ro).lowest_change_id_ro = none := by
      unfold fetch_ro_redis_data
      rw [hz]
    rw [hnone] at hroL
    cases hroL
  | some M =>
    have hcur : (fetch_ro_redis_data ro).change_id_ro = Cursor.score M := by
      unfold fetch_ro_redis_data
      rw [hz]
    have hroAl : alookup ro.changeLog lowest_change_id_member = some L := by
      have hlow : (fetch_ro_redis_data ro).lowest_change_id_ro
          = alookup ro.changeLog lowest_change_id_member := by
        unfold fetch_ro_redis_data
        rw [hz]
      rw [hlow] at hroL
      exact hroL
    have hLM : L ≤ M := le_zmax_of_mem hz (lookup_mem hroAl)
    have hst1 : (sync_redis prod ro).1
        = (do_partial_update prod ro (Cursor.score M)).1 := by
      simp [sync_redis, hm, hd, hcur]
    have hFmem : ∀ p ∈ (partialFetch prod (fetchFloorArg (Cursor.score M))).2,
        M + 1 ≤ p.2 := by
      intro p hp
      have hq := (List.mem_filter.mp hp).2
      simpa [cursorLe, fetchFloorArg] using hq
    by_cases hfe : (partialFetch prod (fetchFloorArg (Cursor.score M))).2 = []
    · have hdp := do_partial_update_nil prod ro (Cursor.score M) hfe
      have hro1 : (sync_redis prod ro).1 = ro := by rw [hst1, hdp]
      constructor
      · rw [hro1]
        exact hro1
      · rw [hro1]
        simp [sync_redis, hm, hd, hcur, hdp]
    · have hdp := do_partial_update_eq prod ro (Cursor.score M) hfe
      have hFnd : nodupKeys (partialFetch prod (fetchFloorArg (Cursor.score M))).2 :=
        nodupKeys_filter _ _ hwfp
      have hcne : convert_change_id_list
          (partialFetch prod (fetchFloorArg (Cursor.score M))).2 ≠ [] := by
        intro hc
        exact hfe (List.map_eq_nil_iff.mp hc)
      set A := applyPartial ro (partialFetch prod (fetchFloorArg (Cursor.score M))).1
        (convert_change_id_list (partialFetch prod (fetchFloorArg (Cursor.score M))).2)
        with hAdef
      have hro1 : (sync_redis prod ro).1 = A := by rw [hst1, hdp]
      have hCL : A.changeLog
          = hmset ro.changeLog (partialFetch prod (fetchFloorArg (Cursor.score M))).2 := by
        rw [hAdef, applyPartial_changeLog_nonempty _ _ _ hcne, zadd_convert]
      have hcfg_notin : lowest_change_id_member
          ∉ ((partialFetch prod (fetchFloorArg (Cursor.score M))).2).map Prod.fst := by
        intro hin
        rcases List.mem_map.mp hin with ⟨q, hq, hqe⟩
        have hq2 : M + 1 ≤ q.2 := hFmem q hq
        have hqp : q ∈ prod.changeLog := (List.mem_filter.mp hq).1
        have hql : alookup prod.changeLog lowest_change_id_member = some q.2 := by
          have hqm : (lowest_change_id_member, q.2) ∈ prod.changeLog := by
            rw [← hqe]
            exact hqp
          exact mem_lookup_nodup hwfp hqm
        rw [hprodL] at hql
        have hLq : L = q.2 := Option.some.inj hql
        omega
      obtain ⟨k0, hk0⟩ := zmax_exists_mem hz
      have hk0look : alookup ro.changeLog k0 = some M := mem_lookup_nodup hwfr hk0
      have hM2ex : ∃ M2, zmaxScore (hmset ro.changeLog
          (partialFetch prod (fetchFloorArg (Cursor.score M))).2) = some M2
          ∧ M ≤ M2 := by
        rcases lookup_hmset_cases
            (partialFetch prod (fetchFloorArg (Cursor.score M))).2 ro.changeLog k0 with
          hcc | ⟨v, hvf, hvl⟩
        · rw [hk0look] at hcc
          have hmem0 := lookup_mem hcc
          obtain ⟨M2, hM2⟩ := zmax_isSome_of_mem hmem0
          exact ⟨M2, hM2, le_zmax_of_mem hM2 hmem0⟩
        · have hvge : M + 1 ≤ v := hFmem (k0, v) hvf
          have hmem0 := lookup_mem hvl
          obtain ⟨M2, hM2⟩ := zmax_isSome_of_mem hmem0
          have hvM2 : v ≤ M2 := le_zmax_of_mem hM2 hmem0
          exact ⟨M2, hM2, by omega⟩
      obtain ⟨M2, hM2, hMM2⟩ := hM2ex
      have hProdBound : ∀ p ∈ prod.changeLog, p.2 ≤ M2 := by
        intro p hp
        by_cases hple : p.2 ≤ M
        · omega
        · have hge : M + 1 ≤ p.2 := by omega
          have hpf : p ∈ (partialFetch prod (fetchFloorArg (Cursor.score M))).2 :=
            List.mem_filter.mpr ⟨hp, by
              simp only [fetchFloorArg, cursorLe, decide_eq_true_eq]
              exact hge⟩
          have hlook : alookup (hmset ro.changeLog
              (partialFetch prod (fetchFloorArg (Cursor.score M))).2) p.1 = some p.2 :=
            lookup_hmset_mem_nodup _ hFnd hpf
          exact le_zmax_of_mem hM2 (lookup_mem hlook)
      have hz2 : zmaxScore A.changeLog = some M2 := by
        rw [hCL]
        exact hM2
      have hcur2 : (fetch_ro_redis_data A).change_id_ro = Cursor.score M2 := by
        unfold fetch_ro_redis_data
        rw [hz2]
      have hlow2 : (fetch_ro_redis_data A).lowest_change_id_ro = some L := by
        unfold fetch_ro_redis_data
        rw [hz2]
        show alookup A.changeLog lowest_change_id_member = some L
        rw [hCL, lookup_hmset_notmem _ _ _ hcfg_notin]
        exact hroAl
      have hd2 : syncDecision prod A = false :=
        (syncDecision_eq_false_iff prod A).mpr ⟨L, hlow2, hprodL⟩
      have hfe2 : (partialFetch prod (fetchFloorArg (Cursor.score M2))).2 = [] := by
        apply List.filter_eq_nil_iff.mpr
        intro p hp
        have hb := hProdBound p hp
        simp only [fetchFloorArg, cursorLe, decide_eq_true_eq]
        omega
      have hdp2 := do_partial_update_nil prod A (Cursor.score M2) hfe2
      constructor
      · rw [hro1]
        simp [sync_redis, hm, hd2, hcur2, hdp2]
      · rw [hro1]
        simp [sync_redis, hm, hd2, hcur2, hdp2]

/-- Witness for C3 at the example pair. -/
theorem incremental_sync_idempotent_witness :
    (sync_redis exProd (sync_redis exProd exRo).1).1 = (sync_redis exProd exRo).1
    ∧ Ev.roWrite ∉ (sync_redis exProd (sync_redis exProd exRo).1).2 :=
  incremental_sync_idempotent exProd exRo rfl (by decide) (by decide) (by decide)

end SyncRedis
